import Mathlib

/-!
# WatchParty synchronization core — a shallow embedding

This file embeds the playback-synchronization logic of the two WatchParty
clients (`watchparty.py`, the CLI/mpv-IPC client, and `watchpartyui.py`,
the embedded-libmpv GUI client) as pure Lean functions, and proves the
spec's claims about them.

Modelling conventions:
* Python `int` millisecond timestamps and versions become `ℤ`.
* Python `float` seconds (player positions, drifts, speeds) become `ℚ`;
  the floating-point literals `0.25`, `0.6`, `1.5`, `0.10` used by the
  drift policies are exactly representable, so `ℚ` is faithful there.
* A value read from JSON with `dict.get(key, default)` or from the player
  (which may be unavailable) is an `Option`, with the source's default
  applied exactly where the source applies it.
* Python `str` payload text is `List Char` (a sequence of code points).
* Player commands issued during a reconciliation pass are collected in a
  `List PlayerCall` trace, in the order the source issues them; property
  reads are inputs of the function, mirroring the fresh reads the source
  performs.
-/

namespace WatchParty

/-- Python `int(q)` on a float/rational: truncation toward zero. -/
def pyTrunc (q : ℚ) : ℤ := if 0 ≤ q then ⌊q⌋ else ⌈q⌉

/-- `clamp(x, lo, hi) = max(lo, min(hi, x))` — identical in both source files
(`watchparty.py` line 121, `watchpartyui.py` line 63). -/
def clamp (x lo hi : ℚ) : ℚ := max lo (min hi x)

/-- Python `str.strip()` whitespace test (covers `" \t\n\r\v\f"`). -/
def pyIsSpace (c : Char) : Bool :=
  c = ' ' || c = '\t' || c = '\n' || c = '\r' || c = '\x0b' || c = '\x0c'

/-- Python `str.strip()`: drop whitespace from both ends. -/
def pyStrip (s : List Char) : List Char :=
  ((s.dropWhile pyIsSpace).reverse.dropWhile pyIsSpace).reverse

/-- A player command issued by a reconciliation pass or a UI intent.
`setPaused b` covers `mpv.play()`/`mpv.pause()`/`toggle_pause()` (all are
writes of the `pause` flag), `seekAbsolute` an absolute seek, `setSpeed`
a playback-speed write. -/
inductive PlayerCall where
  | setPaused (paused : Bool)
  | seekAbsolute (seconds : ℚ)
  | setSpeed (speed : ℚ)
  deriving DecidableEq, Repr

/-- An outbound protocol message (the fields the claims are about). -/
inductive OutMsg where
  | control (action : String) (positionMs : Option ℤ)
  | chat (text : List Char)
  deriving DecidableEq, Repr

/-- An incoming `state` payload, as a JSON dict: every field may be absent
(`dict.get` with a default in the source). -/
structure StateMsg where
  version : Option ℤ
  isPlaying : Option Bool
  positionMs : Option ℤ
  updatedAt : Option ℤ
  updatedBy : Option String
  deriving DecidableEq, Repr

/-- The GUI client's `RoomState` dataclass (`watchpartyui.py` lines 490–496). -/
structure RoomState where
  isPlaying : Bool := false
  positionMs : ℤ := 0
  updatedAt : ℤ := 0
  updatedBy : String := ""
  version : ℤ := 0
  deriving DecidableEq, Repr

/-! ## ClockSync: pong handling (identical in both clients)

`watchparty.py` lines 318–326, `watchpartyui.py` lines 1009–1015:
`rtt = max(1, t1 - t0); server_offset_ms = int(server_time - (t0 + rtt / 2))`.
The `/` is Python float division and `int(...)` truncates toward zero. -/

/-- `rtt = max(1, t1 - t0)` where `t0` is the echoed send time and `t1` the
local receive time. -/
def pongRtt (t0 t1 : ℤ) : ℤ := max 1 (t1 - t0)

/-- The offset computed from one pong: `int(serverTime - (t0 + rtt / 2))`. -/
def pongOffset (t0 serverTime t1 : ℤ) : ℤ :=
  pyTrunc ((serverTime : ℚ) - ((t0 : ℚ) + (pongRtt t0 t1 : ℚ) / 2))

/-- The pong handler as a state update of the stored offset: the prior
estimate is overwritten by plain assignment. -/
def pongHandle (priorOffset t0 serverTime t1 : ℤ) : ℤ :=
  let _ := priorOffset
  pongOffset t0 serverTime t1

/-- `estimateServerNow() = localNowMs() + offset` (`server_now = ms() +
server_offset_ms` at `watchparty.py` line 166, `watchpartyui.py` line 1124). -/
def estimateServerNow (localNow offset : ℤ) : ℤ := localNow + offset

/-! ## DriftCorrector targets -/

/-- CLI client target (`watchparty.py` lines 166–172): when playing,
`target_ms = position_ms + (server_now - updated_at)` — note there is no
inner `max 0` clamp on the elapsed term — else `position_ms`; then
`target_s = max(0.0, target_ms / 1000.0)`. -/
def cliTargetS (positionMs updatedAt serverNow : ℤ) (isPlaying : Bool) : ℚ :=
  let targetMs : ℤ :=
    if isPlaying then positionMs + (serverNow - updatedAt) else positionMs
  max 0 ((targetMs : ℚ) / 1000)

/-- GUI client target (`watchpartyui.py` lines 1124–1131): when playing,
`target_ms = positionMs + max(0, server_now - updatedAt)`, else
`positionMs`; then `target_s = max(0.0, target_ms / 1000.0)`. -/
def guiTargetS (positionMs updatedAt serverNow : ℤ) (isPlaying : Bool) : ℚ :=
  let targetMs : ℤ :=
    if isPlaying then positionMs + max 0 (serverNow - updatedAt) else positionMs
  max 0 ((targetMs : ℚ) / 1000)

/-- Modelled from the spec: `target(snapshot)` as §4.3 words it —
`targetMs = positionMs + max(0, serverNow - updatedAt)` when playing, else
`positionMs`; `targetSeconds = max(0, targetMs/1000)`. Kept as a separate
definition to compare the two clients' code against the spec's words. -/
def specTargetS (positionMs updatedAt serverNow : ℤ) (isPlaying : Bool) : ℚ :=
  let targetMs : ℤ :=
    if isPlaying then positionMs + max 0 (serverNow - updatedAt) else positionMs
  max 0 ((targetMs : ℚ) / 1000)

/-! ## CLI client `apply_state` (`watchparty.py` lines 149–206)

Inputs beyond the message: the stored `last_state_version` and
`server_offset_ms`, the local clock reading `ms()`, and the two fresh mpv
property reads `time-pos` and `pause` (each `Option`: mpv may answer
`None`). Output: the new `last_state_version` and the trace of player
commands issued. -/

def cliApplyState (lastVersion offset localNow : ℤ) (st : StateMsg)
    (curS : Option ℚ) (pausedProp : Option Bool) : ℤ × List PlayerCall :=
  let version := st.version.getD 0
  if version ≤ lastVersion then (lastVersion, [])
  else
    let isPlaying := st.isPlaying.getD false
    let positionMs := st.positionMs.getD 0
    let updatedAt := st.updatedAt.getD 0
    let serverNow := estimateServerNow localNow offset
    let targetS := cliTargetS positionMs updatedAt serverNow isPlaying
    match curS with
    | none => (version, [])
    | some cur =>
      let driftS := targetS - cur
      let paused := pausedProp.getD false
      let pauseCalls : List PlayerCall :=
        (if isPlaying && paused then [.setPaused false] else []) ++
        (if !isPlaying && !paused then [.setPaused true] else [])
      let adrift := |driftS|
      let seekCalls : List PlayerCall :=
        if adrift > 2 then [.seekAbsolute targetS]
        else if adrift > 0.6 then [.seekAbsolute targetS]
        else []
      (version, pauseCalls ++ seekCalls)

/-! ## GUI client `_apply_state` (`watchpartyui.py` lines 1107–1161) -/

/-- The GUI session fields `_apply_state` touches: `last_version`
(initialized 0) and the stored `RoomState` snapshot `self.state`. -/
structure GuiSession where
  lastVersion : ℤ := 0
  roomState : RoomState := {}
  deriving DecidableEq, Repr

/-- GUI `_apply_state`: version filter, snapshot replacement, then (when a
player exists and both fresh reads `time-pos` and `pause` are available)
play/pause reconciliation and the smooth-speed drift policy. Returns the
updated session and the trace of player commands. -/
def guiApplyState (s : GuiSession) (offset localNow : ℤ) (st : StateMsg)
    (hasPlayer : Bool) (curS : Option ℚ) (pausedFlag : Option Bool) :
    GuiSession × List PlayerCall :=
  let version := st.version.getD 0
  if version ≤ s.lastVersion then (s, [])
  else
    let snap : RoomState :=
      { isPlaying := st.isPlaying.getD false
        positionMs := st.positionMs.getD 0
        updatedAt := st.updatedAt.getD 0
        updatedBy := st.updatedBy.getD ""
        version := version }
    let s' : GuiSession := { lastVersion := version, roomState := snap }
    if !hasPlayer then (s', [])
    else
      let serverNow := estimateServerNow localNow offset
      let targetS := guiTargetS snap.positionMs snap.updatedAt serverNow snap.isPlaying
      match curS, pausedFlag with
      | some cur, some paused =>
        let drift := targetS - cur
        let ppCalls : List PlayerCall :=
          if snap.isPlaying && paused then [.setPaused false]
          else if !snap.isPlaying && !paused then [.setPaused true]
          else []
        let dcCalls : List PlayerCall :=
          if |drift| < 0.25 then [.setSpeed 1]
          else if |drift| < 1.5 then
            [.setSpeed (1 + clamp (drift * 0.10) (-0.10) 0.10)]
          else [.setSpeed 1, .seekAbsolute targetS]
        (s', ppCalls ++ dcCalls)
      | _, _ => (s', [])

/-! ## ControlDispatcher: user intents

CLI: branches of `stdin_loop` (`watchparty.py` lines 241–291). Each branch
only awaits `send(ws, ...)` (plus, for `fwd`/`back`, a read of `time-pos`);
none issues a player command, so each returns the emitted messages together
with an (empty) player-command trace, the shape making "no mutation"
checkable. GUI: `_toggle_play_pause`, `_seek_rel`, `_send_chat`
(`watchpartyui.py` lines 1059–1080). -/

/-- CLI `play` command: emits `{"type":"control","action":"PLAY"}`. -/
def cliCmdPlay : List OutMsg × List PlayerCall :=
  ([.control "PLAY" none], [])

/-- CLI `pause` command: emits `{"type":"control","action":"PAUSE"}`. -/
def cliCmdPause : List OutMsg × List PlayerCall :=
  ([.control "PAUSE" none], [])

/-- CLI `seek <sec>` command: emits `SEEK` with `positionMs = int(sec * 1000)`. -/
def cliCmdSeek (sec : ℚ) : List OutMsg × List PlayerCall :=
  ([.control "SEEK" (some (pyTrunc (sec * 1000)))], [])

/-- CLI `fwd <delta>` command: reads `time-pos` (`or 0.0` on a falsy read)
and emits `SEEK` with `positionMs = int((cur + delta) * 1000)` — no clamp. -/
def cliCmdFwd (cur : Option ℚ) (delta : ℚ) : List OutMsg × List PlayerCall :=
  ([.control "SEEK" (some (pyTrunc ((cur.getD 0 + delta) * 1000)))], [])

/-- CLI `back <delta>` command: reads `time-pos` (`or 0.0`) and emits `SEEK`
with `positionMs = int(max(0.0, cur - delta) * 1000)`. -/
def cliCmdBack (cur : Option ℚ) (delta : ℚ) : List OutMsg × List PlayerCall :=
  ([.control "SEEK" (some (pyTrunc (max 0 (cur.getD 0 - delta) * 1000)))], [])

/-- CLI `chat <message...>` branch: for an (already-stripped) input `line`,
`msg = line[len("chat"):].strip()`; a chat message is sent iff `msg` is
nonempty. -/
def cliCmdChat (line : List Char) : List OutMsg × List PlayerCall :=
  let msg := pyStrip (line.drop 4)
  (if msg ≠ [] then [.chat msg] else [], [])

/-- GUI `_send_chat`: emits `{"type":"chat","text": text[:500]}`. -/
def guiSendChat (text : List Char) : List OutMsg × List PlayerCall :=
  ([.chat (text.take 500)], [])

/-- GUI `_seek_rel` (happy path, `ws` and `player` present): reads
`time-pos` (`or 0.0`), computes `target = max(0.0, cur + delta)` and emits
`SEEK` with `positionMs = int(target * 1000)`. No player command. -/
def guiSeekRel (cur : Option ℚ) (delta : ℚ) : List OutMsg × List PlayerCall :=
  let target := max 0 (cur.getD 0 + delta)
  ([.control "SEEK" (some (pyTrunc (target * 1000)))], [])

/-- GUI `player.toggle_pause()` (`watchpartyui.py` lines 359–363): reads
the `pause` flag; on `None` it returns without acting, otherwise writes
`pause := not p`. -/
def guiTogglePauseCalls (pausedBefore : Option Bool) : List PlayerCall :=
  match pausedBefore with
  | none => []
  | some p => [.setPaused (!p)]

/-- GUI `_toggle_play_pause` (happy path, `ws` and `player` present):
calls `player.toggle_pause()`, re-reads the `pause` flag (`pausedAfter`,
a fresh read; `None` is falsy), and emits `PAUSE` if it reads true else
`PLAY`. -/
def guiTogglePlayPause (pausedBefore pausedAfter : Option Bool) :
    List OutMsg × List PlayerCall :=
  ([.control (if pausedAfter.getD false then "PAUSE" else "PLAY") none],
   guiTogglePauseCalls pausedBefore)

/-! ## Traces: counting the calls a pass issues -/

/-- Is this call an absolute seek? -/
def PlayerCall.isSeek : PlayerCall → Bool
  | .seekAbsolute _ => true
  | _ => false

/-- Is this call a speed write? -/
def PlayerCall.isSetSpeed : PlayerCall → Bool
  | .setSpeed _ => true
  | _ => false

/-- Is this call a write of the pause flag? -/
def PlayerCall.isSetPaused : PlayerCall → Bool
  | .setPaused _ => true
  | _ => false

/-- The seek calls of a trace. -/
def seeks (tr : List PlayerCall) : List PlayerCall := tr.filter (·.isSeek)

/-- The speed calls of a trace. -/
def speedCalls (tr : List PlayerCall) : List PlayerCall :=
  tr.filter (·.isSetSpeed)

/-! ## Delivery sequences (for the monotonicity claim) -/

/-- One delivered `state` message together with the ambient inputs of its
reconciliation pass (offset and clock at that moment, fresh player reads). -/
structure Delivery where
  offset : ℤ
  localNow : ℤ
  msg : StateMsg
  curS : Option ℚ
  paused : Option Bool

/-- Run the CLI client's `apply_state` over a sequence of deliveries,
tracking `last_state_version`. -/
def cliRunVersions (lastVersion : ℤ) (ds : List Delivery) : ℤ :=
  ds.foldl
    (fun l d => (cliApplyState l d.offset d.localNow d.msg d.curS d.paused).1)
    lastVersion

/-! ## Helper lemmas -/

theorem pyTrunc_intCast (n : ℤ) : pyTrunc (n : ℚ) = n := by
  unfold pyTrunc
  rcases le_or_lt 0 n with h | h
  · rw [if_pos (by exact_mod_cast h)]
    exact Int.floor_intCast n
  · rw [if_neg (by exact_mod_cast not_le.mpr h)]
    exact Int.ceil_intCast n

theorem pyTrunc_nonneg {q : ℚ} (hq : 0 ≤ q) : 0 ≤ pyTrunc q := by
  unfold pyTrunc
  rw [if_pos hq]
  exact Int.le_floor.mpr (by exact_mod_cast hq)

theorem le_clamp (x lo hi : ℚ) : lo ≤ clamp x lo hi := le_max_left _ _

theorem clamp_le {x lo hi : ℚ} (h : lo ≤ hi) : clamp x lo hi ≤ hi :=
  max_le h (min_le_left _ _)

/-! ## Claims -/

/-- **C3** — Clock offset estimation: on every pong carrying echo time `t0`
and `serverTimeMs`, with local receive time `t1`, the client computes
`rtt = max(1, t1 - t0)` and stores `int(serverTimeMs - (t0 + rtt/2))` —
the spec's formula, with Python's `int(...)` truncation making it the
"signed integer milliseconds" of §3 — replacing (not averaging with) the
prior estimate; `localSend=1000, serverTime=1050, localReceive=1100`
yields `rtt=100` and `offset=0`, and the estimated server time at
`localNow=2000` is then `2000`. -/
theorem C3_clock_offset_estimation :
    (∀ prior prior' t0 serverTime t1 : ℤ,
        pongHandle prior t0 serverTime t1 = pongHandle prior' t0 serverTime t1)
    ∧ (∀ t0 serverTime t1 : ℤ,
        pongHandle 0 t0 serverTime t1
          = pyTrunc ((serverTime : ℚ) - ((t0 : ℚ) + ((max 1 (t1 - t0) : ℤ) : ℚ) / 2)))
    ∧ pongRtt 1000 1100 = 100
    ∧ pongOffset 1000 1050 1100 = 0
    ∧ estimateServerNow 2000 0 = 2000 := by
  refine ⟨fun _ _ _ _ _ => rfl, fun _ _ _ => rfl, by decide, ?_, by decide⟩
  norm_num [pongOffset, pongRtt, pyTrunc]

/-- **C2** (counterexample) — the claim says every applied snapshot's target
uses `targetMs = positionMs + max(0, serverNow - updatedAt)` when playing.
The CLI client omits the inner clamp: at `positionMs=60000`,
`updatedAt=10000`, `serverNow=4000` (estimated server time behind the
update time), `isPlaying=true`, its reconciliation pass seeks to `54.0s`
while the claimed formula gives `60.0s`. -/
theorem C2_target_extrapolation_counterexample :
    cliApplyState 0 0 4000 ⟨some 1, some true, some 60000, some 10000, none⟩
        (some 60) (some false)
      = (1, [PlayerCall.seekAbsolute 54])
    ∧ specTargetS 60000 10000 4000 true = 60
    ∧ (54 : ℚ) ≠ 60 := by
  refine ⟨?_, by norm_num [specTargetS], by norm_num⟩
  norm_num [cliApplyState, cliTargetS, estimateServerNow]

/-- **C2** (amended) — Target extrapolation: the GUI client's target is
exactly the spec's formula (`targetMs = positionMs + max(0, serverNow -
updatedAt)` when playing, else `positionMs`; `targetSeconds =
max(0, targetMs/1000)`); the CLI client computes `targetMs = positionMs +
(serverNow - updatedAt)` when playing, without the inner clamp, and only
clamps the final seconds at 0. Both clients satisfy the claim's examples:
`{isPlaying:true, positionMs:60000, updatedAt:1000}` at `serverNow=4000`
gives `63.0s`, and `{isPlaying:false, positionMs:60000}` gives `60.0s`
regardless of elapsed time. -/
theorem C2_target_extrapolation_amended :
    (∀ p u n : ℤ, ∀ pl : Bool, guiTargetS p u n pl = specTargetS p u n pl)
    ∧ (∀ p u n : ℤ, cliTargetS p u n true = max 0 (((p + (n - u) : ℤ) : ℚ) / 1000))
    ∧ (∀ p u n : ℤ, cliTargetS p u n false = max 0 ((p : ℚ) / 1000))
    ∧ guiTargetS 60000 1000 4000 true = 63
    ∧ cliTargetS 60000 1000 4000 true = 63
    ∧ (∀ u n : ℤ, guiTargetS 60000 u n false = 60 ∧ cliTargetS 60000 u n false = 60) := by
  refine ⟨fun _ _ _ _ => rfl, fun _ _ _ => rfl, fun _ _ _ => rfl,
    by norm_num [guiTargetS], by norm_num [cliTargetS], fun u n => ⟨?_, ?_⟩⟩
  · norm_num [guiTargetS]
  · norm_num [cliTargetS]

/-- The speed and seek calls of a trace, in order (the calls the two drift
policies are specified over). -/
def corrCalls (tr : List PlayerCall) : List PlayerCall :=
  tr.filter fun c => c.isSetSpeed || c.isSeek

/-- **C4** — Hard-seek policy (CLI client): in every reconciliation pass of
a fresh version where the live position is available, `|drift| ≤ 0.6`
issues zero `seekAbsolute` calls (dead zone) and `|drift| > 0.6` issues
exactly one `seekAbsolute(target)`; the CLI client never issues a
`setSpeed` call. -/
theorem C4_hard_seek_policy (lastV off now : ℤ) (st : StateMsg) (cur : ℚ)
    (p : Option Bool) (target drift : ℚ)
    (htarget : target = cliTargetS (st.positionMs.getD 0) (st.updatedAt.getD 0)
        (estimateServerNow now off) (st.isPlaying.getD false))
    (hdrift : drift = target - cur)
    (hfresh : lastV < st.version.getD 0) :
    (|drift| ≤ 0.6 →
        seeks (cliApplyState lastV off now st (some cur) p).2 = []
        ∧ speedCalls (cliApplyState lastV off now st (some cur) p).2 = [])
    ∧ (0.6 < |drift| →
        seeks (cliApplyState lastV off now st (some cur) p).2
          = [PlayerCall.seekAbsolute target]
        ∧ speedCalls (cliApplyState lastV off now st (some cur) p).2 = []) := by
  subst hdrift
  subst htarget
  have hv : ¬ (st.version.getD 0 ≤ lastV) := not_le.mpr hfresh
  simp only [cliApplyState, hv, if_false, seeks, speedCalls, List.filter_append]
  constructor <;> intro h <;>
    split_ifs with h1 h2 <;>
    simp_all [PlayerCall.isSeek, PlayerCall.isSetSpeed] <;>
    linarith

/-- **C4** (witness) — at version 1 over initial state, offset 0, local
clock 4000, snapshot `{isPlaying:true, positionMs:60000, updatedAt:1000}`
and live position 60.0s, the drift is +3.0s and the pass issues exactly
one `seekAbsolute(63.0)` and zero `setSpeed` calls. -/
theorem C4_hard_seek_policy_witness :
    0.6 < |cliTargetS 60000 1000 (estimateServerNow 4000 0) true - 60|
    ∧ seeks (cliApplyState 0 0 4000 ⟨some 1, some true, some 60000, some 1000, none⟩
          (some 60) (some false)).2
        = [PlayerCall.seekAbsolute (cliTargetS 60000 1000 (estimateServerNow 4000 0) true)]
    ∧ speedCalls (cliApplyState 0 0 4000 ⟨some 1, some true, some 60000, some 1000, none⟩
          (some 60) (some false)).2 = [] := by
  have hd : (0.6 : ℚ) < |cliTargetS 60000 1000 (estimateServerNow 4000 0) true - 60| := by
    norm_num [cliTargetS, estimateServerNow]
  have h := (C4_hard_seek_policy 0 0 4000 ⟨some 1, some true, some 60000, some 1000, none⟩
      60 (some false) _ _ rfl rfl (by norm_num)).2 hd
  exact ⟨hd, h.1, h.2⟩

/-- **C5** — Smooth-speed policy (GUI client): in every reconciliation pass
of a fresh version with a player and both live reads available,
`|drift| < 0.25` sets speed to exactly 1.0 with no seek; `0.25 ≤ |drift|
< 1.5` sets speed to `1.0 + clamp(drift*0.10, -0.10, 0.10)` with no seek;
`|drift| ≥ 1.5` sets speed to 1.0 and then issues exactly one
`seekAbsolute(target)`. -/
theorem C5_smooth_speed_policy (s : GuiSession) (off now : ℤ) (st : StateMsg)
    (cur : ℚ) (paused : Bool) (target drift : ℚ)
    (htarget : target = guiTargetS (st.positionMs.getD 0) (st.updatedAt.getD 0)
        (estimateServerNow now off) (st.isPlaying.getD false))
    (hdrift : drift = target - cur)
    (hfresh : s.lastVersion < st.version.getD 0) :
    (|drift| < 0.25 →
        speedCalls (guiApplyState s off now st true (some cur) (some paused)).2
          = [PlayerCall.setSpeed 1]
        ∧ seeks (guiApplyState s off now st true (some cur) (some paused)).2 = [])
    ∧ (0.25 ≤ |drift| → |drift| < 1.5 →
        speedCalls (guiApplyState s off now st true (some cur) (some paused)).2
          = [PlayerCall.setSpeed (1 + clamp (drift * 0.10) (-0.10) 0.10)]
        ∧ seeks (guiApplyState s off now st true (some cur) (some paused)).2 = [])
    ∧ (1.5 ≤ |drift| →
        corrCalls (guiApplyState s off now st true (some cur) (some paused)).2
          = [PlayerCall.setSpeed 1, PlayerCall.seekAbsolute target]) := by
  subst hdrift
  subst htarget
  have hv : ¬ (st.version.getD 0 ≤ s.lastVersion) := not_le.mpr hfresh
  simp only [guiApplyState, hv, if_false, seeks, speedCalls, corrCalls,
    List.filter_append, Bool.not_true, Bool.not_false]
  refine ⟨fun h => ?_, fun h h' => ?_, fun h => ?_⟩ <;>
    split_ifs with h1 h2 <;>
    simp_all [PlayerCall.isSeek, PlayerCall.isSetSpeed] <;>
    linarith

/-- **C5** (witness) — at version 1 over the initial session, offset 0,
local clock 4000, snapshot `{isPlaying:true, positionMs:60000,
updatedAt:1000}` and live position 62.0s, the drift is +1.0s and the pass
issues `setSpeed(1.10)` and zero seek calls. -/
theorem C5_smooth_speed_policy_witness :
    0.25 ≤ |guiTargetS 60000 1000 (estimateServerNow 4000 0) true - 62|
    ∧ |guiTargetS 60000 1000 (estimateServerNow 4000 0) true - 62| < 1.5
    ∧ speedCalls (guiApplyState {} 0 4000 ⟨some 1, some true, some 60000, some 1000, none⟩
          true (some 62) (some false)).2
        = [PlayerCall.setSpeed 1.10]
    ∧ seeks (guiApplyState {} 0 4000 ⟨some 1, some true, some 60000, some 1000, none⟩
          true (some 62) (some false)).2 = [] := by
  have ht : guiTargetS 60000 1000 (estimateServerNow 4000 0) true = 63 := by
    norm_num [guiTargetS, estimateServerNow]
  have h := ((C5_smooth_speed_policy {} 0 4000
      ⟨some 1, some true, some 60000, some 1000, none⟩
      62 false (guiTargetS 60000 1000 (estimateServerNow 4000 0) true)
      (guiTargetS 60000 1000 (estimateServerNow 4000 0) true - 62)
      rfl rfl (by norm_num)).2.1
      (by rw [ht]; norm_num) (by rw [ht]; norm_num))
  refine ⟨by rw [ht]; norm_num, by rw [ht]; norm_num, ?_, h.2⟩
  rw [h.1, ht]
  norm_num [clamp, max_def, min_def]

/-- **C6** (counterexample) — the claim says a reconciliation pass is
skipped with no player commands when *either* the live position *or* the
live pause flag is unavailable. The CLI client only skips on a missing
position: with position available (0.0s), pause flag unavailable, and a
fresh paused snapshot, it issues a `setPaused true` command. -/
theorem C6_skip_on_unavailable_counterexample :
    cliApplyState 0 0 0 ⟨some 1, some false, some 0, some 0, none⟩ (some 0) none
      = (1, [PlayerCall.setPaused true])
    ∧ ([PlayerCall.setPaused true] : List PlayerCall) ≠ [] := by
  refine ⟨?_, by simp⟩
  norm_num [cliApplyState, cliTargetS, estimateServerNow]

/-- **C6** (amended) — Skip on unavailable player observation: the GUI
client skips the whole correction cycle (zero player commands) when the
live position or the live pause flag is unavailable; the CLI client skips
only when the live position is unavailable, and treats an unavailable
pause flag as "not paused" and proceeds with the pass. -/
theorem C6_skip_on_unavailable_amended :
    (∀ (s : GuiSession) (off now : ℤ) (st : StateMsg) (hp : Bool)
        (curS : Option ℚ) (pf : Option Bool), curS = none ∨ pf = none →
        (guiApplyState s off now st hp curS pf).2 = [])
    ∧ (∀ (lastV off now : ℤ) (st : StateMsg) (p : Option Bool),
        (cliApplyState lastV off now st none p).2 = [])
    ∧ (∀ (lastV off now : ℤ) (st : StateMsg) (cur : ℚ),
        cliApplyState lastV off now st (some cur) none
          = cliApplyState lastV off now st (some cur) (some false)) := by
  refine ⟨fun s off now st hp curS pf h => ?_, fun lastV off now st p => ?_,
    fun lastV off now st cur => ?_⟩
  · rcases h with h | h <;> subst h <;>
      simp only [guiApplyState] <;>
      split_ifs <;> rfl
  · simp only [cliApplyState]
    split_ifs <;> rfl
  · rfl

/-- **C6** (amended, witness) — the GUI skip instantiated: with the live
position read unavailable, a fresh version-1 pass issues no commands. -/
theorem C6_skip_on_unavailable_witness :
    (guiApplyState {} 0 0 ⟨some 1, some true, some 0, some 0, none⟩
        true none (some false)).2 = [] :=
  C6_skip_on_unavailable_amended.1 {} 0 0 ⟨some 1, some true, some 0, some 0, none⟩
    true none (some false) (Or.inl rfl)

/-- **C7** (counterexample) — the claim says user control intents never
directly change the local player's play/pause state. The GUI client's
play/pause toggle does: with the player reporting paused, the intent
itself writes `pause := false` to the local player (and then emits the
control message from a re-read of the flag). -/
theorem C7_no_optimistic_mutation_counterexample :
    guiTogglePlayPause (some true) (some false)
      = ([OutMsg.control "PLAY" none], [PlayerCall.setPaused false])
    ∧ ([PlayerCall.setPaused false] : List PlayerCall) ≠ [] := by
  exact ⟨rfl, by simp⟩

/-- **C7** (amended) — No optimistic local mutation, except the GUI
play/pause toggle: every CLI control intent (play, pause, seek, fwd, back,
chat) and the GUI seek-relative and chat intents only emit outgoing
messages and issue no player command; the GUI play/pause toggle, however,
first toggles the local player's pause flag (when the flag is readable)
and then emits PLAY/PAUSE from a re-read of the flag, so local play/pause
state does change on that intent rather than only on a server-confirmed
RoomState. -/
theorem C7_no_optimistic_mutation_amended :
    cliCmdPlay = ([OutMsg.control "PLAY" none], [])
    ∧ cliCmdPause = ([OutMsg.control "PAUSE" none], [])
    ∧ (∀ sec : ℚ, (cliCmdSeek sec).2 = [])
    ∧ (∀ (cur : Option ℚ) (delta : ℚ),
        (cliCmdFwd cur delta).2 = [] ∧ (cliCmdBack cur delta).2 = [])
    ∧ (∀ line : List Char, (cliCmdChat line).2 = [])
    ∧ (∀ text : List Char, (guiSendChat text).2 = [])
    ∧ (∀ (cur : Option ℚ) (delta : ℚ), (guiSeekRel cur delta).2 = [])
    ∧ (∀ (p : Bool) (after : Option Bool),
        (guiTogglePlayPause (some p) after).2 = [PlayerCall.setPaused (!p)]) := by
  exact ⟨rfl, rfl, fun _ => rfl, fun _ _ => ⟨rfl, rfl⟩, fun _ => rfl,
    fun _ => rfl, fun _ _ => rfl, fun _ _ => rfl⟩

/-- **C8** (counterexample) — the claim says `sendSeek(seconds)` emits
`positionMs = round(seconds*1000)` and that a relative seek's emitted
`positionMs` is never negative. Both parts fail: the GUI relative seek at
local position 0.0 and delta 0.9999 emits `999` (Python `int(...)`
truncation) where `round` gives `1000`; and the CLI `fwd` command at local
position 0.0 and delta −10 emits `positionMs = -10000 < 0` (its `fwd`
branch has no `max(0, ...)` clamp). -/
theorem C8_seek_encoding_counterexample :
    (guiSeekRel (some 0) 0.9999).1 = [OutMsg.control "SEEK" (some 999)]
    ∧ round (max 0 ((0 : ℚ) + 0.9999) * 1000) = 1000
    ∧ (999 : ℤ) ≠ 1000
    ∧ (cliCmdFwd (some 0) (-10)).1 = [OutMsg.control "SEEK" (some (-10000))]
    ∧ (-10000 : ℤ) < 0 := by
  refine ⟨?_, ?_, by norm_num, ?_, by norm_num⟩
  · norm_num [guiSeekRel, pyTrunc, max_def]
  · norm_num [round_eq, max_def]
  · have h : (((some (0 : ℚ)).getD 0 + (-10)) * 1000 : ℚ) = ((-10000 : ℤ) : ℚ) := by
      norm_num
    simp only [cliCmdFwd, h, pyTrunc_intCast]

/-- **C8** (amended) — Seek message encoding: `sendSeek(seconds)` emits
`positionMs = int(seconds*1000)` (truncation toward zero, not `round`);
the GUI relative seek reads the live position (default 0), clamps
`max(0, local+delta)` and emits its truncated milliseconds, which are
never negative; the CLI `back` command clamps likewise and also never
emits a negative `positionMs`; the CLI `fwd` command omits the clamp and
emits `int((local+delta)*1000)` unchecked. -/
theorem C8_seek_encoding_amended :
    (∀ sec : ℚ,
        (cliCmdSeek sec).1 = [OutMsg.control "SEEK" (some (pyTrunc (sec * 1000)))])
    ∧ (∀ (cur : Option ℚ) (delta : ℚ),
        (guiSeekRel cur delta).1
          = [OutMsg.control "SEEK" (some (pyTrunc (max 0 (cur.getD 0 + delta) * 1000)))]
        ∧ 0 ≤ pyTrunc (max 0 (cur.getD 0 + delta) * 1000))
    ∧ (∀ (cur : Option ℚ) (delta : ℚ),
        (cliCmdBack cur delta).1
          = [OutMsg.control "SEEK" (some (pyTrunc (max 0 (cur.getD 0 - delta) * 1000)))]
        ∧ 0 ≤ pyTrunc (max 0 (cur.getD 0 - delta) * 1000))
    ∧ (∀ (cur : Option ℚ) (delta : ℚ),
        (cliCmdFwd cur delta).1
          = [OutMsg.control "SEEK" (some (pyTrunc ((cur.getD 0 + delta) * 1000)))]) := by
  refine ⟨fun _ => rfl, fun cur delta => ⟨rfl, ?_⟩, fun cur delta => ⟨rfl, ?_⟩,
    fun _ _ => rfl⟩ <;>
    exact pyTrunc_nonneg (mul_nonneg (le_max_left _ _) (by norm_num))

/-- **C10** — Bounded speed correction: every `setSpeed` call issued by the
GUI client's reconciliation pass carries a value that is either exactly
1.0 or `1.0 + clamp(drift*0.10, -0.10, 0.10)` for some drift, hence always
lies in the closed interval [0.90, 1.10]. -/
theorem C10_bounded_speed (s : GuiSession) (off now : ℤ) (st : StateMsg)
    (hp : Bool) (curS : Option ℚ) (pf : Option Bool) (v : ℚ)
    (hmem : PlayerCall.setSpeed v ∈ (guiApplyState s off now st hp curS pf).2) :
    (0.90 ≤ v ∧ v ≤ 1.10)
    ∧ (v = 1
        ∨ v = 1 + clamp ((guiTargetS (st.positionMs.getD 0) (st.updatedAt.getD 0)
            (estimateServerNow now off) (st.isPlaying.getD false) - curS.getD 0)
              * 0.10) (-0.10) 0.10) := by
  have hb : ∀ d : ℚ,
      0.90 ≤ 1 + clamp (d * 0.10) (-0.10) 0.10
      ∧ 1 + clamp (d * 0.10) (-0.10) 0.10 ≤ 1.10 := by
    intro d
    have h1 := le_clamp (d * 0.10) (-0.10) 0.10
    have h2 : clamp (d * 0.10) (-0.10) 0.10 ≤ 0.10 := clamp_le (by norm_num)
    exact ⟨by linarith, by linarith⟩
  simp only [guiApplyState] at hmem
  split_ifs at hmem with h1 h2
  · simp at hmem
  · simp at hmem
  · rcases curS with _ | cur <;> rcases pf with _ | paused <;> simp at hmem
    rcases hmem with hmem | hmem
    · split_ifs at hmem <;> simp at hmem
    · split_ifs at hmem with h3 h4
      · simp at hmem
        subst hmem
        exact ⟨⟨by norm_num, by norm_num⟩, Or.inl rfl⟩
      · simp at hmem
        subst hmem
        exact ⟨hb _, Or.inr rfl⟩
      · simp at hmem
        subst hmem
        exact ⟨⟨by norm_num, by norm_num⟩, Or.inl rfl⟩

/-- **C10** (witness) — the bound instantiated at the pass of
`C5`'s witness scenario (drift +1.0s), whose trace contains
`setSpeed(1.10)`. -/
theorem C10_bounded_speed_witness :
    ((0.90 : ℚ) ≤ 1.10 ∧ (1.10 : ℚ) ≤ 1.10)
    ∧ ((1.10 : ℚ) = 1
        ∨ (1.10 : ℚ) = 1 + clamp ((guiTargetS 60000 1000 (estimateServerNow 4000 0) true - 62)
            * 0.10) (-0.10) 0.10) :=
  C10_bounded_speed {} 0 4000 ⟨some 1, some true, some 60000, some 1000, none⟩
    true (some 62) (some false) 1.10
    (by norm_num [guiApplyState, guiTargetS, estimateServerNow, clamp, max_def, min_def])

set_option maxRecDepth 10000 in
/-- **C9** (counterexample) — the claim says every outbound chat message
has at most 500 characters. The CLI chat branch applies no limit: the
input line `chat ` followed by 501 `a`s emits a chat message whose text
has 501 characters. -/
theorem C9_chat_length_limit_counterexample :
    (cliCmdChat ('c' :: 'h' :: 'a' :: 't' :: ' ' :: List.replicate 501 'a')).1
      = [OutMsg.chat (List.replicate 501 'a')]
    ∧ (List.replicate 501 'a').length = 501
    ∧ 500 < 501 :=
  ⟨by decide, List.length_replicate 501 'a', by norm_num⟩

/-- **C9** (amended) — Chat length limit (GUI only): every chat message the
GUI client emits carries text truncated to at most 500 characters; the CLI
client emits the stripped remainder of the input line unmodified, with no
length limit. -/
theorem C9_chat_length_limit_amended :
    (∀ text : List Char, ∀ m ∈ (guiSendChat text).1,
        m = OutMsg.chat (text.take 500) ∧ (text.take 500).length ≤ 500)
    ∧ (∀ line : List Char, ∀ m ∈ (cliCmdChat line).1,
        m = OutMsg.chat (pyStrip (line.drop 4))) := by
  constructor
  · intro text m hm
    simp only [guiSendChat, List.mem_singleton] at hm
    subst hm
    refine ⟨rfl, ?_⟩
    rw [List.length_take]
    exact min_le_left _ _
  · intro line m hm
    simp only [cliCmdChat] at hm
    split_ifs at hm <;> simp at hm
    exact hm

/-- **C9** (amended, witness) — the GUI bound instantiated at the two-char
message `hi`. -/
theorem C9_chat_length_limit_witness :
    OutMsg.chat (List.take 500 ['h', 'i']) = OutMsg.chat (['h', 'i'].take 500)
    ∧ ((['h', 'i'] : List Char).take 500).length ≤ 500 :=
  C9_chat_length_limit_amended.1 ['h', 'i']
    (OutMsg.chat (List.take 500 ['h', 'i'])) (by simp [guiSendChat])

/-! ## Version-fold helpers for the monotonicity claim -/

theorem cliApplyState_fst (lastV off now : ℤ) (st : StateMsg)
    (curS : Option ℚ) (p : Option Bool) :
    (cliApplyState lastV off now st curS p).1 = max lastV (st.version.getD 0) := by
  by_cases h : st.version.getD 0 ≤ lastV
  · simp only [cliApplyState, if_pos h]
    exact (max_eq_left h).symm
  · simp only [cliApplyState, if_neg h]
    cases curS <;> exact (max_eq_right (le_of_lt (not_le.mp h))).symm

theorem guiApplyState_lastVersion (s : GuiSession) (off now : ℤ) (st : StateMsg)
    (hp : Bool) (curS : Option ℚ) (pf : Option Bool) :
    ((guiApplyState s off now st hp curS pf).1).lastVersion
      = max s.lastVersion (st.version.getD 0) := by
  simp only [guiApplyState]
  split_ifs with h h'
  · exact (max_eq_left h).symm
  · exact (max_eq_right (le_of_lt (not_le.mp h))).symm
  · cases curS <;> cases pf <;>
      exact (max_eq_right (le_of_lt (not_le.mp h))).symm

theorem cliRunVersions_eq_foldl (lastV : ℤ) (ds : List Delivery) :
    cliRunVersions lastV ds
      = (ds.map fun d => d.msg.version.getD 0).foldl max lastV := by
  induction ds generalizing lastV with
  | nil => rfl
  | cons d ds ih =>
      simp only [cliRunVersions, List.foldl_cons, List.map_cons,
        cliApplyState_fst] at *
      exact ih (max lastV (d.msg.version.getD 0))

theorem foldl_max_le_init (l : List ℤ) (a : ℤ) : a ≤ l.foldl max a := by
  induction l generalizing a with
  | nil => exact le_refl a
  | cons x l ih => exact le_trans (le_max_left a x) (ih (max a x))

theorem foldl_max_of_mem {x : ℤ} {l : List ℤ} (a : ℤ) (hx : x ∈ l) :
    x ≤ l.foldl max a := by
  induction l generalizing a with
  | nil => cases hx
  | cons y l ih =>
      rcases List.mem_cons.mp hx with h | h
      · subst h
        exact le_trans (le_max_right a x) (foldl_max_le_init l (max a x))
      · exact ih (max a y) h

theorem foldl_max_eq_init_or_mem (l : List ℤ) (a : ℤ) :
    l.foldl max a = a ∨ l.foldl max a ∈ l := by
  induction l generalizing a with
  | nil => exact Or.inl rfl
  | cons x l ih =>
      rcases ih (max a x) with h | h
      · rcases max_cases a x with ⟨hm, _⟩ | ⟨hm, _⟩
        · exact Or.inl (by rw [List.foldl_cons, h, hm])
        · exact Or.inr (by rw [List.foldl_cons, h, hm]; exact List.mem_cons_self x l)
      · exact Or.inr (List.mem_cons_of_mem x h)

/-- **C1** — Version monotonicity: applying a state whose version is ≤ the
last applied version is a no-op in both clients — zero player calls, and
the stored version (and, in the GUI, the current `RoomState` snapshot) is
unchanged; applying a strictly greater version sets the stored version to
it; consequently, over any nonempty delivery sequence of nonnegative
versions in any order (the server's versions are positive), the final
applied version equals the maximum delivered version. -/
theorem C1_version_monotonicity :
    (∀ (lastV off now : ℤ) (st : StateMsg) (curS : Option ℚ) (p : Option Bool),
        st.version.getD 0 ≤ lastV →
        cliApplyState lastV off now st curS p = (lastV, []))
    ∧ (∀ (s : GuiSession) (off now : ℤ) (st : StateMsg) (hp : Bool)
        (curS : Option ℚ) (pf : Option Bool),
        st.version.getD 0 ≤ s.lastVersion →
        guiApplyState s off now st hp curS pf = (s, []))
    ∧ (∀ (lastV off now : ℤ) (st : StateMsg) (curS : Option ℚ) (p : Option Bool),
        lastV < st.version.getD 0 →
        (cliApplyState lastV off now st curS p).1 = st.version.getD 0)
    ∧ (∀ (s : GuiSession) (off now : ℤ) (st : StateMsg) (hp : Bool)
        (curS : Option ℚ) (pf : Option Bool),
        s.lastVersion < st.version.getD 0 →
        ((guiApplyState s off now st hp curS pf).1).lastVersion = st.version.getD 0)
    ∧ (∀ ds : List Delivery, ds ≠ [] →
        (∀ d ∈ ds, 0 ≤ d.msg.version.getD 0) →
        (∃ d ∈ ds, cliRunVersions 0 ds = d.msg.version.getD 0)
        ∧ ∀ d ∈ ds, d.msg.version.getD 0 ≤ cliRunVersions 0 ds) := by
  refine ⟨?_, ?_, ?_, ?_, ?_⟩
  · intro lastV off now st curS p h
    simp [cliApplyState, h]
  · intro s off now st hp curS pf h
    simp [guiApplyState, h]
  · intro lastV off now st curS p h
    rw [cliApplyState_fst]
    exact max_eq_right (le_of_lt h)
  · intro s off now st hp curS pf h
    rw [guiApplyState_lastVersion]
    exact max_eq_right (le_of_lt h)
  · intro ds hne hnn
    have hfold : cliRunVersions 0 ds
        = (ds.map fun d => d.msg.version.getD 0).foldl max 0 :=
      cliRunVersions_eq_foldl 0 ds
    constructor
    · rcases foldl_max_eq_init_or_mem (ds.map fun d => d.msg.version.getD 0) 0
        with h | h
      · rcases List.exists_mem_of_ne_nil ds hne with ⟨d0, hd0⟩
        have h0 : cliRunVersions 0 ds = 0 := by rw [hfold, h]
        have hub : d0.msg.version.getD 0 ≤ cliRunVersions 0 ds := by
          rw [hfold]
          exact foldl_max_of_mem 0 (List.mem_map_of_mem _ hd0)
        refine ⟨d0, hd0, ?_⟩
        have hv0 : 0 ≤ d0.msg.version.getD 0 := hnn d0 hd0
        linarith [hub, h0]
      · rcases List.mem_map.mp h with ⟨d, hd, hdv⟩
        exact ⟨d, hd, by rw [hfold]; exact hdv.symm⟩
    · intro d hd
      rw [hfold]
      exact foldl_max_of_mem 0 (List.mem_map_of_mem _ hd)

/-- **C1** (witness) — a stale version-5 apply over last version 5 is a
no-op, and over the delivery order 3, 1, 2 from the initial version 0 the
final applied version equals the maximum (3). -/
theorem C1_version_monotonicity_witness :
    cliApplyState 5 0 0 ⟨some 5, none, none, none, none⟩ none none = (5, [])
    ∧ cliRunVersions 0 [⟨0, 0, ⟨some 3, none, none, none, none⟩, none, none⟩,
        ⟨0, 0, ⟨some 1, none, none, none, none⟩, none, none⟩,
        ⟨0, 0, ⟨some 2, none, none, none, none⟩, none, none⟩] = 3
    ∧ ((∃ d ∈ ([⟨0, 0, ⟨some 3, none, none, none, none⟩, none, none⟩,
          ⟨0, 0, ⟨some 1, none, none, none, none⟩, none, none⟩,
          ⟨0, 0, ⟨some 2, none, none, none, none⟩, none, none⟩] : List Delivery),
          cliRunVersions 0 [⟨0, 0, ⟨some 3, none, none, none, none⟩, none, none⟩,
            ⟨0, 0, ⟨some 1, none, none, none, none⟩, none, none⟩,
            ⟨0, 0, ⟨some 2, none, none, none, none⟩, none, none⟩]
            = d.msg.version.getD 0)
        ∧ ∀ d ∈ ([⟨0, 0, ⟨some 3, none, none, none, none⟩, none, none⟩,
            ⟨0, 0, ⟨some 1, none, none, none, none⟩, none, none⟩,
            ⟨0, 0, ⟨some 2, none, none, none, none⟩, none, none⟩] : List Delivery),
            d.msg.version.getD 0
              ≤ cliRunVersions 0 [⟨0, 0, ⟨some 3, none, none, none, none⟩, none, none⟩,
                ⟨0, 0, ⟨some 1, none, none, none, none⟩, none, none⟩,
                ⟨0, 0, ⟨some 2, none, none, none, none⟩, none, none⟩]) :=
  ⟨C1_version_monotonicity.1 5 0 0 ⟨some 5, none, none, none, none⟩ none none
      (by norm_num),
   by decide,
   C1_version_monotonicity.2.2.2.2 _ (by simp) (by decide)⟩

end WatchParty
